import Mathlib

/-!
Verification development for the excel-interview-agent repository.

The development shallowly embeds two bodies of code from the repository:

* the TypeScript persistence/service layer (`SessionService`, the
  `SessionResponse` entity with its `UNIQUE (session_id, question_id)`
  constraint from the `CreateTables` migration, and the Joi validation
  schemas), and
* the Python interview engine skeleton shipped in the repository's tech-spec
  document (`InterviewEngine`, `Evaluator`, `Reporter`,
  `mock_llm_evaluate`, `InterviewState`).

Components that the repository's documents declare but whose implementation
files are not part of the source tree (the rule-checker reconciliation
policy, the difficulty adapter, and the narrative-scorer retry path) are
modelled from the specification text; each such definition carries a doc
comment starting with `Modelled from the spec:`.
-/

/-- The `DifficultyLevel` enum from the backend type declarations. -/
inductive DifficultyLevel where
  | beginner
  | intermediate
  | advanced
  | expert
deriving DecidableEq, Repr

/-- The `SessionStatus` enum from the backend type declarations. -/
inductive SessionStatus where
  | pending
  | in_progress
  | completed
  | abandoned
deriving DecidableEq, Repr

/-- The `QuestionType` enum from the backend type declarations. -/
inductive QuestionType where
  | multiple_choice
  | text_input
  | formula
  | practical
deriving DecidableEq, Repr

namespace Backend

/-- A row of the `interview_sessions` table / `InterviewSession` entity.
Timestamps are modelled as natural numbers, the `numeric(5,2)` score column
as an optional rational. -/
structure InterviewSession where
  id : String
  interview_id : String
  candidate_name : String
  candidate_email : String
  status : SessionStatus
  started_at : Option Nat
  completed_at : Option Nat
  total_score : Option ℚ
deriving DecidableEq, Repr

/-- A row of the `session_responses` table / `SessionResponse` entity.
The primary key `id` is modelled as a natural number assigned by the table
on insert; `score` is the nullable `numeric(5,2)` column. -/
structure SessionResponse where
  id : Nat
  session_id : String
  question_id : String
  answer : String
  score : Option ℚ
  time_taken : Int
  is_correct : Bool
deriving DecidableEq, Repr

/-- Embedding of `SessionService.createSession`: a new session starts with status
`pending` and no timestamps or total score. -/
def createSession (id interview_id candidate_name candidate_email : String) :
    InterviewSession :=
  { id := id
    interview_id := interview_id
    candidate_name := candidate_name
    candidate_email := candidate_email
    status := SessionStatus.pending
    started_at := none
    completed_at := none
    total_score := none }

/-- Embedding of `SessionService.startSession`: unconditionally updates the session row to
status `in_progress` and stamps `started_at` with the current time.  The
source performs a repository update of status and started_at with no check
of the current status, so the definition is total on a found session. -/
def startSession (s : InterviewSession) (now : Nat) : InterviewSession :=
  { s with status := SessionStatus.in_progress, started_at := some now }

/-- The row built by `SessionService.submitResponse`: the repository create
call spreads the request data and forces `is_correct` to `false`; the score
column is left null. -/
def mkSubmitRow (id : Nat) (session_id question_id answer : String)
    (time_taken : Int) : SessionResponse :=
  { id := id
    session_id := session_id
    question_id := question_id
    answer := answer
    score := none
    time_taken := time_taken
    is_correct := false }

/-- Key clash test for the `UNIQUE ("session_id", "question_id")` constraint
placed on `session_responses` by the `CreateTables` migration. -/
def keyClash (t : List SessionResponse) (r : SessionResponse) : Bool :=
  t.any fun q => q.session_id = r.session_id && q.question_id = r.question_id

/-- Insert into `session_responses` honouring the unique constraint: an
insert whose `(session_id, question_id)` pair already exists is rejected by
the database and surfaces as an error (caught by the service and re-thrown
as `AppError`). -/
def insertResponse (t : List SessionResponse) (r : SessionResponse) :
    Except String (List SessionResponse) :=
  if keyClash t r then Except.error "duplicate key" else Except.ok (t ++ [r])

/-- Embedding of `SessionService.submitResponse` against a table state: builds the new
row (fresh primary key, `is_correct := false`, no score) and inserts it. -/
def submitResponse (t : List SessionResponse)
    (session_id question_id answer : String) (time_taken : Int) :
    Except String (List SessionResponse) :=
  insertResponse t (mkSubmitRow t.length session_id question_id answer time_taken)

/-- The `evaluateResponseSchema` Joi schema: `score` must be a number between
0 and 100; `is_correct` is a boolean (already guaranteed by typing). -/
def evaluateResponseSchemaOk (score : ℚ) : Bool :=
  decide (0 ≤ score) && decide (score ≤ 100)

/-- Embedding of `SessionService.evaluateResponse`: updates the row with the given
primary key, setting its score and correctness verdict. -/
def evaluateResponse (t : List SessionResponse) (responseId : Nat)
    (score : ℚ) (is_correct : Bool) : List SessionResponse :=
  t.map fun r =>
    if r.id = responseId then { r with score := some score, is_correct := is_correct }
    else r

/-- The `evaluateResponse` endpoint: the validation middleware applies
`evaluateResponseSchema` before the service runs. -/
def evaluateResponseEndpoint (t : List SessionResponse) (responseId : Nat)
    (score : ℚ) (is_correct : Bool) : Except String (List SessionResponse) :=
  if evaluateResponseSchemaOk score then
    Except.ok (evaluateResponse t responseId score is_correct)
  else
    Except.error "Validation failed"

/-- The responses of one session, as fetched by the response repository
find-by-session_id call in `completeSession`. -/
def sessionResponses (t : List SessionResponse) (session_id : String) :
    List SessionResponse :=
  t.filter fun r => r.session_id = session_id

/-- The total score computed by `SessionService.completeSession`: the plain
sum of the scores of the scored responses of the session (responses with a
null score are filtered out first). -/
def completeTotalScore (t : List SessionResponse) (session_id : String) : ℚ :=
  (((sessionResponses t session_id).filter fun r => r.score.isSome).foldl
    (fun sum r => sum + r.score.getD 0) 0)

/-- Embedding of `SessionService.completeSession`: marks the session completed, stamps
`completed_at` and stores the summed total score. -/
def completeSession (t : List SessionResponse) (s : InterviewSession)
    (now : Nat) : InterviewSession :=
  { s with
    status := SessionStatus.completed
    completed_at := some now
    total_score := some (completeTotalScore t s.id) }

/-- Uniqueness of the `(session_id, question_id)` pair across a table state:
the invariant enforced by the migration's unique constraint. -/
def UniqueKeys (t : List SessionResponse) : Prop :=
  List.Pairwise
    (fun a b => ¬(a.session_id = b.session_id ∧ a.question_id = b.question_id)) t

instance : DecidablePred UniqueKeys := fun t =>
  List.instDecidablePairwise t

end Backend

namespace Engine

/-- The interview phases of the engine.  The skeleton uses the string values
intro, qa, reflection and closing; scenario is the fifth value admitted by
the full Pydantic model of the tech spec. -/
inductive Phase where
  | intro
  | qa
  | scenario
  | reflection
  | closing
deriving DecidableEq, Repr

/-- The `Question` Pydantic model of the skeleton. -/
structure Question where
  id : String
  text : String
  qtype : String := "qa"
deriving DecidableEq, Repr

/-- A random number generator modelling Python's `random` module: an
external stream of draws together with a position.  `random.randint(a, b)`
consumes one draw and yields a value in the inclusive range. -/
structure Rng where
  stream : Nat → Nat
  pos : Nat

/-- Embedding of `random.randint(a, b)`: inclusive uniform draw, modelled by reducing the
next stream value into the range. -/
def randint (g : Rng) (a b : Nat) : Nat × Rng :=
  (a + g.stream g.pos % (b - a + 1), { g with pos := g.pos + 1 })

/-- The dict returned by `mock_llm_evaluate`. -/
structure MockLLMResult where
  correctness : ℚ
  design : ℚ
  communication : ℚ
  rationale : String
  advice : List String
  evidence : List String
deriving DecidableEq, Repr

/-- Embedding of `mock_llm_evaluate`: imitates an LLM rubric grade with random axis
scores, a fixed rationale and advice, and the first 40 characters of the
answer as evidence. -/
def mock_llm_evaluate (g : Rng) (_question_text answer_text : String) :
    MockLLMResult × Rng :=
  let c := (randint g 3 5).1
  let g1 := (randint g 3 5).2
  let d := (randint g1 2 5).1
  let g2 := (randint g1 2 5).2
  let m := (randint g2 2 5).1
  let g3 := (randint g2 2 5).2
  ({ correctness := (c : ℚ)
     design := (d : ℚ)
     communication := (m : ℚ)
     rationale := "Reason: concise and mostly correct."
     advice := ["Add examples", "Explain tradeoffs"]
     evidence := [answer_text.take 40] }, g3)

/-- The value returned by `Evaluator.evaluate` in the skeleton. -/
structure EvalResult where
  correctness : ℚ
  design : ℚ
  communication : ℚ
  overall : ℚ
  rationale : String
  advice : List String
  evidence : List String
deriving DecidableEq, Repr

/-- Embedding of `Evaluator.evaluate` of the skeleton: calls the mock LLM and computes
the weighted overall score 0.4 correctness + 0.3 design +
0.3 communication. -/
def evaluate (g : Rng) (question : Question) (answer_text : String) :
    EvalResult × Rng :=
  let r := (mock_llm_evaluate g question.text answer_text).1
  let g1 := (mock_llm_evaluate g question.text answer_text).2
  let overall := r.correctness * 0.4 + r.design * 0.3 + r.communication * 0.3
  ({ correctness := r.correctness
     design := r.design
     communication := r.communication
     overall := overall
     rationale := r.rationale
     advice := r.advice
     evidence := r.evidence }, g1)

/-- The scores dict stored on a `ResponseRecord` by `process_response`:
the spread of the evaluation scores plus the overall entry. -/
structure RecordScores where
  correctness : ℚ
  design : ℚ
  communication : ℚ
  overall : ℚ
deriving DecidableEq, Repr

/-- The `ResponseRecord` Pydantic model of the skeleton. -/
structure ResponseRecord where
  question_id : String
  question_text : String
  answer_text : String
  timestamp : Nat
  evaluator_id : String := "mock-v0"
  scores : RecordScores
  rationale : String := ""
deriving DecidableEq, Repr

/-- The dict returned by `Reporter.generate_report`: either the
no-responses message or the aggregate summary. -/
inductive Report where
  | noResponses (message : String)
  | summary (avg_score : ℚ) (strengths : String) (responses : List ResponseRecord)
deriving DecidableEq, Repr

/-- The `InterviewState` Pydantic model of the skeleton: session id, phase
(defaulting to intro), question index (defaulting to 0), the question list,
the accumulated response records, timestamps and the report once
generated. -/
structure InterviewState where
  session_id : String
  phase : Phase := Phase.intro
  q_index : Nat := 0
  questions : List Question := []
  responses : List ResponseRecord := []
  start_time : Nat
  end_time : Option Nat := none
  feedback_report : Option Report := none
deriving DecidableEq, Repr

/-- Embedding of `InterviewEngine.__init__`: a fresh state with the given questions and
every other field at its default. -/
def initState (session_id : String) (questions : List Question)
    (start_time : Nat) : InterviewState :=
  { session_id := session_id
    questions := questions
    start_time := start_time }

/-- Embedding of `make_questions` of the skeleton: the three hard-coded questions the
engine is constructed with. -/
def make_questions : List Question :=
  [ { id := "q1", text := "Tell me about a project you are proud of." }
  , { id := "q2", text := "How would you optimize a slow SQL query?" }
  , { id := "q3", text := "Explain multithreading vs multiprocessing." } ]

/-- Embedding of `Reporter.generate_report`: with no responses the dict carries only a
message; otherwise the mean of the per-response overall scores, the canned
strengths text, and the response records. -/
def generate_report (state : InterviewState) : Report :=
  if state.responses = [] then Report.noResponses "No responses"
  else
    let total := (state.responses.map fun r => r.scores.overall).sum
    let avg := total / (state.responses.length : ℚ)
    let strengths := if avg > 6 then "Good communication." else "Needs more depth."
    Report.summary avg strengths state.responses

/-- Embedding of `InterviewEngine.ask_next`: the phase transition driven by asking.
From intro it moves to qa and greets; within qa it repeats the pending
question, or moves to reflection when the questions are exhausted; from
reflection it moves to closing; otherwise it reports completion. -/
def ask_next (s : InterviewState) : String × InterviewState :=
  match s.phase, s.questions[s.q_index]? with
  | Phase.intro, _ =>
      ("Welcome! I\x27ll ask a few technical questions.", { s with phase := Phase.qa })
  | Phase.qa, some q => (q.text, s)
  | Phase.qa, none =>
      ("Reflect: what\x27s one thing you would improve?",
        { s with phase := Phase.reflection })
  | Phase.reflection, _ =>
      ("Thank you — generating report...", { s with phase := Phase.closing })
  | _, _ => ("Interview complete.", s)

/-- Embedding of `InterviewEngine.process_response`: in qa with a pending question the
answer is evaluated, the record appended, the index advanced and `ask_next`
run; in reflection the end time is stamped, the report generated and the
phase closed; otherwise the call falls through to `ask_next`. -/
def process_response (g : Rng) (now : Nat) (s : InterviewState)
    (user_text : String) : String × InterviewState × Rng :=
  match s.phase, s.questions[s.q_index]? with
  | Phase.qa, some q =>
      let er := (evaluate g q user_text).1
      let g1 := (evaluate g q user_text).2
      let resp : ResponseRecord :=
        { question_id := q.id
          question_text := q.text
          answer_text := user_text
          timestamp := now
          evaluator_id := "mock-v0"
          scores :=
            { correctness := er.correctness
              design := er.design
              communication := er.communication
              overall := er.overall }
          rationale := er.rationale }
      let s1 := { s with responses := s.responses ++ [resp], q_index := s.q_index + 1 }
      ((ask_next s1).1, (ask_next s1).2, g1)
  | Phase.reflection, _ =>
      let s1 := { s with end_time := some now }
      let report := generate_report s1
      let s2 := { s1 with feedback_report := some report, phase := Phase.closing }
      ("Report ready.", s2, g)
  | _, _ =>
      ((ask_next s).1, (ask_next s).2, g)

/-- The fuller `InterviewState` Pydantic model given in the data-model
section of the tech spec: it extends the skeleton state with a difficulty
level defaulting to 1 and free-form metadata. -/
structure FullInterviewState where
  session_id : String
  phase : Phase := Phase.intro
  q_index : Nat := 0
  difficulty_level : Nat := 1
  questions : List Question := []
  responses : List ResponseRecord := []
  start_time : Nat
  end_time : Option Nat := none
  feedback_report : Option Report := none
  meta : List (String × String) := []
deriving DecidableEq, Repr

/-- A fresh fuller state: every field except the identifiers at its
default. -/
def fullInit (session_id : String) (start_time : Nat) : FullInterviewState :=
  { session_id := session_id, start_time := start_time }

/-- One externally driven engine operation: either the UI asking for the
next message or the candidate submitting a response at some time. -/
inductive EngineOp where
  | askNext
  | respond (now : Nat) (text : String)

/-- One engine operation applied to a state, threading the random
stream. -/
def stepOp (g : Rng) (s : InterviewState) : EngineOp → InterviewState × Rng
  | EngineOp.askNext => ((ask_next s).2, g)
  | EngineOp.respond now t =>
      ((process_response g now s t).2.1, (process_response g now s t).2.2)

/-- The list of states visited while running a sequence of operations,
starting with the initial state. -/
def statesOf (g : Rng) (s : InterviewState) : List EngineOp → List InterviewState
  | [] => [s]
  | op :: rest =>
      s :: statesOf (stepOp g s op).2 (stepOp g s op).1 rest

/-- Collapse consecutive duplicates, leaving the sequence of distinct
phases the session passes through over time. -/
def dedupConsec : List Phase → List Phase
  | [] => []
  | [a] => [a]
  | a :: b :: rest =>
      if a = b then dedupConsec (b :: rest) else a :: dedupConsec (b :: rest)

/-- The observed distinct-phase trace of a run. -/
def observedTrace (g : Rng) (s : InterviewState) (ops : List EngineOp) :
    List Phase :=
  dedupConsec ((statesOf g s ops).map fun st => st.phase)

/-- Decides whether `l` is a leading segment (an initial segment) of
`m`. -/
def leadingSegment : List Phase → List Phase → Bool
  | [], _ => true
  | _ :: _, [] => false
  | a :: l, b :: m => a = b && leadingSegment l m

/-- The canonical five-phase order named by the specification. -/
def canonicalPhases : List Phase :=
  [Phase.intro, Phase.qa, Phase.scenario, Phase.reflection, Phase.closing]

/-- The four phases the skeleton engine actually visits, in order. -/
def skelFrom : Phase → List Phase
  | Phase.intro => [Phase.intro, Phase.qa, Phase.reflection, Phase.closing]
  | Phase.qa => [Phase.qa, Phase.reflection, Phase.closing]
  | Phase.scenario => [Phase.scenario]
  | Phase.reflection => [Phase.reflection, Phase.closing]
  | Phase.closing => [Phase.closing]

/-- Running a list of timed responses through `process_response`,
returning the final state. -/
def runResponses (g : Rng) (s : InterviewState) :
    List (Nat × String) → InterviewState × Rng
  | [] => (s, g)
  | (now, t) :: rest =>
      runResponses (process_response g now s t).2.2 (process_response g now s t).2.1 rest

/-- A concrete random stream used for closed runs. -/
def zeroRng : Rng := { stream := fun _ => 0, pos := 0 }

/-- The engine as constructed at module load in the skeleton: a fresh state
over the three hard-coded questions. -/
def demoInit : InterviewState := initState "sess-demo" make_questions 0

/-- A concrete full run of the engine: the opening ask, three answered
questions and one reflection answer. -/
def demoOps : List EngineOp :=
  [ EngineOp.askNext
  , EngineOp.respond 1 "I built a reporting pipeline."
  , EngineOp.respond 2 "Add an index and rewrite the join."
  , EngineOp.respond 3 "Threads share memory, processes do not."
  , EngineOp.respond 4 "I would practice system design." ]

end Engine

namespace Demo

/-- A concrete response table: two distinct questions answered in one
session, as left by two `submitResponse` calls. -/
def twoRows : List Backend.SessionResponse :=
  [ Backend.mkSubmitRow 0 "s1" "q1" "=SUM(A1:A10)" 10
  , Backend.mkSubmitRow 1 "s1" "q2" "=VLOOKUP(A1,B:C,2,FALSE)" 12 ]

/-- The same table after both responses are evaluated at the maximal
schema-valid score of 100. -/
def twoRowsScored : List Backend.SessionResponse :=
  Backend.evaluateResponse (Backend.evaluateResponse twoRows 0 100 true) 1 100 true

/-- A concrete session used in closed statements. -/
def session0 : Backend.InterviewSession :=
  Backend.createSession "s1" "intv1" "Alice" "alice@example.com"

end Demo

namespace SpecModel

/-- Evaluation provenance as named by the specification. -/
inductive Provenance where
  | ruleOnly
  | ruleNarrative
  | degraded
deriving DecidableEq, Repr

/-- Modelled from the spec: the deterministic rule-checker for formula
questions (part of the interview_engine evaluator, whose implementation
file is not in the source tree) returns a correctness score and a boolean
verified flag. -/
structure RuleCheck where
  verified : Bool
  correctness : ℚ
deriving DecidableEq, Repr

/-- Modelled from the spec: the per-axis rubric scores of an evaluation
(correctness, explanation clarity, excel specificity). -/
structure RubricScores where
  correctness : ℚ
  clarity : ℚ
  specificity : ℚ
deriving DecidableEq, Repr

/-- Modelled from the spec: the reconciliation policy of the composite
evaluator.  When the rule-checker yields a verified result on a formula
question, its correctness score overrides the narrative correctness axis
regardless of value; the narrative result still supplies the other axes.
Otherwise the narrative result is used as-is. -/
def reconcile (isFormula : Bool) (rule : RuleCheck) (narrative : RubricScores) :
    RubricScores :=
  if isFormula && rule.verified then
    { correctness := rule.correctness
      clarity := narrative.clarity
      specificity := narrative.specificity }
  else narrative

/-- Outcome of one attempt to call the external narrative scorer: a
validated rubric result, or a failure (timeout or un-parseable or
schema-invalid output). -/
inductive NarrativeOutcome where
  | ok (r : RubricScores)
  | failed
deriving DecidableEq, Repr

/-- Modelled from the spec: the bounded narrative-scorer call (missing
interview_engine evaluator file) — one initial attempt and at most one
retry on failure, never an unbounded loop.  Returns the outcome and the
number of attempts issued. -/
def narrativeWithRetry (attempts : Nat → NarrativeOutcome) :
    NarrativeOutcome × Nat :=
  match attempts 0 with
  | NarrativeOutcome.ok r => (NarrativeOutcome.ok r, 1)
  | NarrativeOutcome.failed =>
      match attempts 1 with
      | NarrativeOutcome.ok r => (NarrativeOutcome.ok r, 2)
      | NarrativeOutcome.failed => (NarrativeOutcome.failed, 2)

/-- Modelled from the spec: the degraded path of the composite evaluator.
If the narrative scorer still fails after the single retry, provenance is
marked degraded and only the rule-checker correctness plus a neutral
default for the non-checkable axes are used; otherwise the reconciled
result carries the rule-plus-narrative provenance. -/
def evalWithFallback (isFormula : Bool) (rule : RuleCheck) (neutral : ℚ)
    (attempts : Nat → NarrativeOutcome) : Provenance × RubricScores :=
  match (narrativeWithRetry attempts).1 with
  | NarrativeOutcome.ok narrative =>
      (Provenance.ruleNarrative, reconcile isFormula rule narrative)
  | NarrativeOutcome.failed =>
      (Provenance.degraded,
        { correctness := rule.correctness, clarity := neutral, specificity := neutral })

/-- The last `n` entries of a chronological score history. -/
def lastN (n : Nat) (l : List ℚ) : List ℚ :=
  ((l.reverse.take n).reverse)

/-- Escalate one difficulty tier, capped at expert. -/
def escalate : DifficultyLevel → DifficultyLevel
  | DifficultyLevel.beginner => DifficultyLevel.intermediate
  | DifficultyLevel.intermediate => DifficultyLevel.advanced
  | DifficultyLevel.advanced => DifficultyLevel.expert
  | DifficultyLevel.expert => DifficultyLevel.expert

/-- De-escalate one difficulty tier, floored at beginner. -/
def deescalate : DifficultyLevel → DifficultyLevel
  | DifficultyLevel.beginner => DifficultyLevel.beginner
  | DifficultyLevel.intermediate => DifficultyLevel.beginner
  | DifficultyLevel.advanced => DifficultyLevel.intermediate
  | DifficultyLevel.expert => DifficultyLevel.advanced

/-- Modelled from the spec: the difficulty adapter (missing
interview_engine difficulty logic) — a pure function of the rolling
average of the last two correctness scores: average at least 4 escalates
one tier (capped at expert), average at most 2 de-escalates one tier
(floored at beginner), anything else holds the tier. -/
def nextTier (history : List ℚ) (current : DifficultyLevel) : DifficultyLevel :=
  if lastN 2 history = [] then current
  else if 4 ≤ (lastN 2 history).sum / ((lastN 2 history).length : ℚ) then
    escalate current
  else if (lastN 2 history).sum / ((lastN 2 history).length : ℚ) ≤ 2 then
    deescalate current
  else current

end SpecModel

/-- C1: for a formula question whose deterministic rule-checker yields a
verified result, the correctness axis used for aggregation equals the
rule-checker's correctness score — overriding the narrative scorer's
correctness regardless of its value, while the narrative result still
supplies the other axes; in particular a verified-wrong answer with
correctness 1 keeps the aggregated correctness at most 1. -/
theorem c1_override_law :
    ∀ (rule : SpecModel.RuleCheck) (narrative : SpecModel.RubricScores),
      rule.verified = true →
      ((SpecModel.reconcile true rule narrative).correctness = rule.correctness ∧
       (SpecModel.reconcile true rule narrative).clarity = narrative.clarity ∧
       (SpecModel.reconcile true rule narrative).specificity = narrative.specificity ∧
       (rule.correctness = 1 →
         (SpecModel.reconcile true rule narrative).correctness ≤ 1)) := by
  intro rule narrative hv
  refine ⟨by simp [SpecModel.reconcile, hv], by simp [SpecModel.reconcile, hv],
    by simp [SpecModel.reconcile, hv], ?_⟩
  intro h1
  simp [SpecModel.reconcile, hv, h1]

/-- Witness for C1: the rule-checker verifies a wrong formula answer with
correctness 1 while the narrative scorer rates every axis 5; the
aggregated correctness stays at 1. -/
theorem c1_override_law_witness :
    (SpecModel.reconcile true { verified := true, correctness := 1 }
        { correctness := 5, clarity := 5, specificity := 5 }).correctness ≤ 1 :=
  (c1_override_law { verified := true, correctness := 1 }
      { correctness := 5, clarity := 5, specificity := 5 } rfl).2.2.2 rfl

/-- C4 (amended): a fresh engine state starts at phase intro with question
index 0 (and the fuller Pydantic model defaults the difficulty level to 1),
the first ask on a fresh session returns the introductory welcome prompt
while moving the phase to qa, and `createSession` creates the session
pending; but `startSession` unconditionally marks the session in_progress
and stamps `started_at`, so a second call on the same session succeeds
again instead of failing with AlreadyStarted. -/
theorem c4_start_behavior :
    ∀ (sid : String) (qs : List Engine.Question) (t0 : Nat)
      (s : Backend.InterviewSession) (now : Nat) (a b c d : String),
      (Engine.initState sid qs t0).phase = Engine.Phase.intro ∧
      (Engine.initState sid qs t0).q_index = 0 ∧
      (Engine.ask_next (Engine.initState sid qs t0)).1 =
        "Welcome! I\x27ll ask a few technical questions." ∧
      (Engine.ask_next (Engine.initState sid qs t0)).2.phase = Engine.Phase.qa ∧
      (Engine.fullInit sid t0).difficulty_level = 1 ∧
      (Backend.createSession a b c d).status = SessionStatus.pending ∧
      (Backend.startSession s now).status = SessionStatus.in_progress ∧
      (Backend.startSession s now).started_at = some now := by
  intro sid qs t0 s now a b c d
  exact ⟨rfl, rfl, rfl, rfl, rfl, rfl, rfl, rfl⟩

/-- Counterexample for C4: starting an already started session does not
fail with AlreadyStarted and does not leave the state unchanged — the
second call completes with status in_progress and overwrites
`started_at`. -/
theorem c4_counterexample :
    Backend.startSession (Backend.startSession Demo.session0 1) 2 ≠
      Backend.startSession Demo.session0 1 ∧
    (Backend.startSession (Backend.startSession Demo.session0 1) 2).status =
      SessionStatus.in_progress ∧
    (Backend.startSession (Backend.startSession Demo.session0 1) 2).started_at =
      some 2 := by
  refine ⟨by decide, rfl, rfl⟩

/-- C7: tables satisfying the unique `(session_id, question_id)` constraint
keep it across inserts, and inserting a response for an already answered
question of the same session is rejected with a duplicate-key error (so it
can never be double-counted in any total computed from the table). -/
theorem c7_unique_response_per_question :
    ∀ (t : List Backend.SessionResponse) (r : Backend.SessionResponse),
      Backend.UniqueKeys t →
      ((∀ t', Backend.insertResponse t r = Except.ok t' → Backend.UniqueKeys t') ∧
       ((∃ q ∈ t, q.session_id = r.session_id ∧ q.question_id = r.question_id) →
         Backend.insertResponse t r = Except.error "duplicate key")) := by
  intro t r hu
  constructor
  · intro t' hok
    unfold Backend.insertResponse at hok
    by_cases h : Backend.keyClash t r = true
    · simp [h] at hok
    · simp only [h, Bool.false_eq_true, if_false, if_neg] at hok
      injection hok with hok
      subst hok
      unfold Backend.UniqueKeys at hu ⊢
      rw [List.pairwise_append]
      refine ⟨hu, List.pairwise_singleton _ _, ?_⟩
      intro a ha b hb
      simp only [List.mem_singleton] at hb
      subst hb
      rintro ⟨h1, h2⟩
      apply h
      unfold Backend.keyClash
      rw [List.any_eq_true]
      exact ⟨a, ha, by simp [h1, h2]⟩
  · rintro ⟨q, hq, h1, h2⟩
    have hk : Backend.keyClash t r = true := by
      unfold Backend.keyClash
      rw [List.any_eq_true]
      exact ⟨q, hq, by simp [h1, h2]⟩
    unfold Backend.insertResponse
    simp [hk]

/-- Witness for C7: a concrete unique table rejects a second response for
question q1 of session s1. -/
theorem c7_unique_response_per_question_witness :
    Backend.insertResponse Demo.twoRows (Backend.mkSubmitRow 2 "s1" "q1" "dup" 5) =
      Except.error "duplicate key" :=
  (c7_unique_response_per_question Demo.twoRows
      (Backend.mkSubmitRow 2 "s1" "q1" "dup" 5) (by decide)).2
    ⟨Backend.mkSubmitRow 0 "s1" "q1" "=SUM(A1:A10)" 10, by decide, rfl, rfl⟩

/-- C8: report generation is a deterministic function of the stored
response records alone — two states with the same responses yield equal
reports, so regenerating from an unchanged state is idempotent and makes
no new scoring decisions. -/
theorem c8_report_deterministic :
    ∀ (s t : Engine.InterviewState), s.responses = t.responses →
      Engine.generate_report s = Engine.generate_report t := by
  intro s t h
  unfold Engine.generate_report
  rw [h]

/-- Witness for C8: two states that differ in session id, questions and
start time but share their (empty) responses produce the same report. -/
theorem c8_report_deterministic_witness :
    Engine.generate_report (Engine.initState "a" Engine.make_questions 0) =
      Engine.generate_report (Engine.initState "b" [] 7) :=
  c8_report_deterministic _ _ rfl

/-- C10: `submitResponse` always persists the new response with
`is_correct = false` and a null score, regardless of the answer text; a
score and a correctness verdict are attached only by a later
`evaluateResponse` call, whose score the validation schema constrains to
the interval from 0 to 100. -/
theorem c10_unevaluated_unscored :
    ∀ (t : List Backend.SessionResponse) (sid qid ans : String) (tt : Int),
      (Backend.mkSubmitRow t.length sid qid ans tt).is_correct = false ∧
      (Backend.mkSubmitRow t.length sid qid ans tt).score = none ∧
      (∀ t', Backend.submitResponse t sid qid ans tt = Except.ok t' →
        t' = t ++ [Backend.mkSubmitRow t.length sid qid ans tt]) ∧
      (∀ (rid : Nat) (sc : ℚ) (b : Bool),
        (0 ≤ sc → sc ≤ 100 →
          Backend.evaluateResponseEndpoint t rid sc b =
            Except.ok (Backend.evaluateResponse t rid sc b)) ∧
        (¬ (0 ≤ sc ∧ sc ≤ 100) →
          Backend.evaluateResponseEndpoint t rid sc b =
            Except.error "Validation failed") ∧
        (∀ r ∈ t, r.id = rid →
          { r with score := some sc, is_correct := b } ∈
            Backend.evaluateResponse t rid sc b)) := by
  intro t sid qid ans tt
  refine ⟨rfl, rfl, ?_, ?_⟩
  · intro t' hok
    unfold Backend.submitResponse Backend.insertResponse at hok
    by_cases h : Backend.keyClash t (Backend.mkSubmitRow t.length sid qid ans tt) = true
    · simp [h] at hok
    · simp only [h, Bool.false_eq_true, if_false, if_neg] at hok
      injection hok with hok
      exact hok.symm
  · intro rid sc b
    refine ⟨?_, ?_, ?_⟩
    · intro h1 h2
      simp [Backend.evaluateResponseEndpoint, Backend.evaluateResponseSchemaOk, h1, h2]
    · intro h
      rcases not_and_or.mp h with h' | h' <;>
        simp [Backend.evaluateResponseEndpoint, Backend.evaluateResponseSchemaOk, h']
    · intro r hr hid
      unfold Backend.evaluateResponse
      exact List.mem_map.mpr ⟨r, hr, by simp [hid]⟩

/-- Witness for C10: a freshly submitted row is unscored and marked
incorrect, and a later evaluation at the schema-maximal score 100 passes
validation. -/
theorem c10_unevaluated_unscored_witness :
    (Backend.mkSubmitRow 0 "s1" "q1" "=SUM(A1:A10)" 10).score = none ∧
    Backend.evaluateResponseEndpoint Demo.twoRows 0 100 true =
      Except.ok (Backend.evaluateResponse Demo.twoRows 0 100 true) :=
  ⟨(c10_unevaluated_unscored [] "s1" "q1" "=SUM(A1:A10)" 10).2.1,
   ((c10_unevaluated_unscored Demo.twoRows "s1" "q1" "=SUM(A1:A10)" 10).2.2.2
       0 100 true).1 (by norm_num) (by norm_num)⟩

/-- In qa with a pending question, asking again leaves the state
unchanged. -/
lemma ask_next_state_qa_lt {s : Engine.InterviewState}
    (hp : s.phase = Engine.Phase.qa) (h : s.q_index < s.questions.length) :
    (Engine.ask_next s).2 = s := by
  simp [Engine.ask_next, hp, List.getElem?_eq_getElem h]

/-- In qa with the questions exhausted, asking moves the phase to
reflection. -/
lemma ask_next_state_qa_ge {s : Engine.InterviewState}
    (hp : s.phase = Engine.Phase.qa) (h : s.questions.length ≤ s.q_index) :
    (Engine.ask_next s).2 = { s with phase := Engine.Phase.reflection } := by
  have hq : s.questions[s.q_index]? = none := List.getElem?_eq_none_iff.mpr h
  simp [Engine.ask_next, hp, hq]

/-- Processing a response in qa with a pending question appends a record,
advances the index and then behaves as `ask_next` on the advanced state. -/
lemma process_response_state_qa_some {s : Engine.InterviewState}
    (hp : s.phase = Engine.Phase.qa) {q : Engine.Question}
    (hq : s.questions[s.q_index]? = some q) (g : Engine.Rng) (now : Nat)
    (txt : String) :
    ∃ resp, (Engine.process_response g now s txt).2.1 =
      (Engine.ask_next
        { s with responses := s.responses ++ [resp], q_index := s.q_index + 1 }).2 := by
  refine ⟨{ question_id := q.id
            question_text := q.text
            answer_text := txt
            timestamp := now
            evaluator_id := "mock-v0"
            scores :=
              { correctness := (Engine.evaluate g q txt).1.correctness
                design := (Engine.evaluate g q txt).1.design
                communication := (Engine.evaluate g q txt).1.communication
                overall := (Engine.evaluate g q txt).1.overall }
            rationale := (Engine.evaluate g q txt).1.rationale }, ?_⟩
  simp [Engine.process_response, hp, hq]

/-- Processing a response in qa with the questions exhausted moves the
phase to reflection and changes nothing else. -/
lemma process_response_state_qa_none {s : Engine.InterviewState}
    (hp : s.phase = Engine.Phase.qa)
    (hq : s.questions[s.q_index]? = none) (g : Engine.Rng) (now : Nat)
    (txt : String) :
    (Engine.process_response g now s txt).2.1 =
      { s with phase := Engine.Phase.reflection } := by
  simp [Engine.process_response, Engine.ask_next, hp, hq]

/-- Processing a response in reflection stamps the end time, stores the
generated report and closes the session. -/
lemma process_response_state_reflection {s : Engine.InterviewState}
    (hp : s.phase = Engine.Phase.reflection) (g : Engine.Rng) (now : Nat)
    (txt : String) :
    (Engine.process_response g now s txt).2.1 =
      { s with end_time := some now,
               feedback_report :=
                 some (Engine.generate_report { s with end_time := some now }),
               phase := Engine.Phase.closing } := by
  rcases hq : s.questions[s.q_index]? with _ | q <;>
    simp [Engine.process_response, hp, hq]

/-- Processing a response in closing leaves the state unchanged. -/
lemma process_response_state_closing {s : Engine.InterviewState}
    (hp : s.phase = Engine.Phase.closing) (g : Engine.Rng) (now : Nat)
    (txt : String) :
    (Engine.process_response g now s txt).2.1 = s := by
  rcases hq : s.questions[s.q_index]? with _ | q <;>
    simp [Engine.process_response, Engine.ask_next, hp, hq]

/-- Once the session is in reflection or closing, further responses never
change the question index. -/
lemma runResponses_stable :
    ∀ (inputs : List (Nat × String)) (g : Engine.Rng) (s : Engine.InterviewState),
      s.phase = Engine.Phase.reflection ∨ s.phase = Engine.Phase.closing →
      (Engine.runResponses g s inputs).1.q_index = s.q_index := by
  intro inputs
  induction inputs with
  | nil => intro g s _; rfl
  | cons hd rest ih =>
      intro g s hps
      obtain ⟨now, txt⟩ := hd
      rcases hps with hp | hp
      · simp only [Engine.runResponses]
        rw [process_response_state_reflection hp]
        exact ih _ _ (Or.inr rfl)
      · simp only [Engine.runResponses]
        rw [process_response_state_closing hp]
        exact ih _ _ (Or.inr hp)

/-- From any qa state whose index is within bounds, the index after a run
of responses is the old index plus the number of responses, clamped at the
number of questions. -/
lemma runResponses_qa :
    ∀ (inputs : List (Nat × String)) (g : Engine.Rng) (s : Engine.InterviewState),
      s.phase = Engine.Phase.qa → s.q_index ≤ s.questions.length →
      (Engine.runResponses g s inputs).1.q_index =
        min (s.q_index + inputs.length) s.questions.length := by
  intro inputs
  induction inputs with
  | nil =>
      intro g s hp hle
      simp only [Engine.runResponses, List.length_nil, Nat.add_zero]
      omega
  | cons hd rest ih =>
      intro g s hp hle
      obtain ⟨now, txt⟩ := hd
      simp only [Engine.runResponses, List.length_cons]
      rcases hq : s.questions[s.q_index]? with _ | q
      · have hlen := List.getElem?_eq_none_iff.mp hq
        rw [process_response_state_qa_none hp hq]
        rw [runResponses_stable rest _ _ (Or.inl rfl)]
        rw [show ({ s with phase := Engine.Phase.reflection } :
          Engine.InterviewState).q_index = s.q_index from rfl]
        omega
      · have hlt := (List.getElem?_eq_some_iff.mp hq).1
        obtain ⟨resp, hstep⟩ := process_response_state_qa_some hp hq g now txt
        rw [hstep]
        by_cases h2 : s.q_index + 1 < s.questions.length
        · rw [ask_next_state_qa_lt (by simp [hp]) (by simpa using h2)]
          rw [ih _ _ (by simp [hp]) (by simpa using Nat.le_of_lt h2)]
          simp only [List.length_cons]
          omega
        · rw [ask_next_state_qa_ge (by simp [hp]) (by simpa using Nat.le_of_not_lt h2)]
          rw [runResponses_stable rest _ _ (Or.inl rfl)]
          simp
          omega

/-- C5: starting at the beginning of the qa phase, after k submitted
responses the question index equals min k (number of configured
questions). -/
theorem c5_q_index_min :
    ∀ (g : Engine.Rng) (s : Engine.InterviewState) (inputs : List (Nat × String)),
      s.phase = Engine.Phase.qa → s.q_index = 0 →
      (Engine.runResponses g s inputs).1.q_index =
        min inputs.length s.questions.length := by
  intro g s inputs hp h0
  have h := runResponses_qa inputs g s hp (by omega)
  rw [h0] at h
  simpa using h

/-- Witness for C5: five responses against the three-question demo bank
leave the index at 3; two responses leave it at 2. -/
theorem c5_q_index_min_witness :
    (Engine.runResponses Engine.zeroRng
        { Engine.demoInit with phase := Engine.Phase.qa }
        [(1, "a"), (2, "b")]).1.q_index = 2 ∧
    (Engine.runResponses Engine.zeroRng
        { Engine.demoInit with phase := Engine.Phase.qa }
        [(1, "a"), (2, "b"), (3, "c"), (4, "d"), (5, "e")]).1.q_index = 3 := by
  constructor
  · exact (c5_q_index_min Engine.zeroRng _ _ rfl rfl).trans
      (by norm_num [Engine.demoInit, Engine.initState, Engine.make_questions])
  · exact (c5_q_index_min Engine.zeroRng _ _ rfl rfl).trans
      (by norm_num [Engine.demoInit, Engine.initState, Engine.make_questions])

/-- C9: the narrative-scorer call issues at most two attempts (one initial
call plus one retry), its outcome depends only on those two attempts, a
double failure degrades the evaluation to the rule-checker axes with
neutral defaults and provenance degraded, a success on the retry keeps the
full rule-plus-narrative provenance, and — independently of any evaluator
outcome — a reflection-phase response still closes the session with a
generated feedback report, so the session always advances. -/
theorem c9_degraded_path :
    ∀ (attempts : Nat → SpecModel.NarrativeOutcome) (isFormula : Bool)
      (rule : SpecModel.RuleCheck) (neutral : ℚ),
      (SpecModel.narrativeWithRetry attempts).2 ≤ 2 ∧
      (∀ a2, a2 0 = attempts 0 → a2 1 = attempts 1 →
        SpecModel.narrativeWithRetry a2 = SpecModel.narrativeWithRetry attempts) ∧
      (attempts 0 = SpecModel.NarrativeOutcome.failed →
       attempts 1 = SpecModel.NarrativeOutcome.failed →
        SpecModel.evalWithFallback isFormula rule neutral attempts =
          (SpecModel.Provenance.degraded,
            { correctness := rule.correctness, clarity := neutral,
              specificity := neutral })) ∧
      (∀ r, attempts 0 = SpecModel.NarrativeOutcome.failed →
            attempts 1 = SpecModel.NarrativeOutcome.ok r →
        (SpecModel.evalWithFallback isFormula rule neutral attempts).1 =
          SpecModel.Provenance.ruleNarrative) ∧
      (∀ (g : Engine.Rng) (now : Nat) (s : Engine.InterviewState) (txt : String),
        s.phase = Engine.Phase.reflection →
        ((Engine.process_response g now s txt).2.1.feedback_report.isSome = true ∧
         (Engine.process_response g now s txt).2.1.phase = Engine.Phase.closing)) := by
  intro attempts isFormula rule neutral
  refine ⟨?_, ?_, ?_, ?_, ?_⟩
  · unfold SpecModel.narrativeWithRetry
    rcases h0 : attempts 0 with r | _
    · show (1 : Nat) ≤ 2
      omega
    · rcases h1 : attempts 1 with r | _ <;> (show (2 : Nat) ≤ 2; omega)
  · intro a2 e0 e1
    unfold SpecModel.narrativeWithRetry
    rw [e0, e1]
  · intro h0 h1
    unfold SpecModel.evalWithFallback SpecModel.narrativeWithRetry
    rw [h0, h1]
  · intro r h0 h1
    unfold SpecModel.evalWithFallback SpecModel.narrativeWithRetry
    rw [h0, h1]
  · intro g now s txt hp
    rw [process_response_state_reflection hp]
    exact ⟨rfl, rfl⟩

/-- Witness for C9: a narrative scorer that fails on both attempts yields
the degraded provenance with the rule-checker correctness of 1 preserved,
and a concrete reflection-phase response still closes the session. -/
theorem c9_degraded_path_witness :
    SpecModel.evalWithFallback true { verified := true, correctness := 1 }
        (5 / 2) (fun _ => SpecModel.NarrativeOutcome.failed) =
      (SpecModel.Provenance.degraded,
        { correctness := 1, clarity := 5 / 2, specificity := 5 / 2 }) ∧
    (Engine.process_response Engine.zeroRng 9
        { Engine.demoInit with phase := Engine.Phase.reflection }
        "done").2.1.phase = Engine.Phase.closing :=
  ⟨(c9_degraded_path (fun _ => SpecModel.NarrativeOutcome.failed) true
      { verified := true, correctness := 1 } (5 / 2)).2.2.1 rfl rfl,
   ((c9_degraded_path (fun _ => SpecModel.NarrativeOutcome.failed) true
      { verified := true, correctness := 1 } (5 / 2)).2.2.2.2 Engine.zeroRng 9
      { Engine.demoInit with phase := Engine.Phase.reflection } "done" rfl).2⟩

/-- Single-step phase behaviour of `ask_next`: the phase is unchanged or
takes one of the three forward transitions of the skeleton. -/
lemma ask_next_phase_step (s : Engine.InterviewState) :
    (Engine.ask_next s).2.phase = s.phase ∨
    (s.phase = Engine.Phase.intro ∧ (Engine.ask_next s).2.phase = Engine.Phase.qa) ∨
    (s.phase = Engine.Phase.qa ∧
      (Engine.ask_next s).2.phase = Engine.Phase.reflection) ∨
    (s.phase = Engine.Phase.reflection ∧
      (Engine.ask_next s).2.phase = Engine.Phase.closing) := by
  rcases hp : s.phase <;> rcases hq : s.questions[s.q_index]? with _ | q <;>
    simp [Engine.ask_next, hp, hq]

/-- In qa, asking leaves the phase at qa or moves it to reflection. -/
lemma ask_next_qa_phase (s1 : Engine.InterviewState)
    (hp1 : s1.phase = Engine.Phase.qa) :
    (Engine.ask_next s1).2.phase = Engine.Phase.qa ∨
    (Engine.ask_next s1).2.phase = Engine.Phase.reflection := by
  by_cases hlt : s1.q_index < s1.questions.length
  · rw [ask_next_state_qa_lt hp1 hlt]
    exact Or.inl hp1
  · rw [ask_next_state_qa_ge hp1 (Nat.le_of_not_lt hlt)]
    exact Or.inr rfl

/-- Single-step phase behaviour of `process_response`: the phase is
unchanged or takes one of the three forward transitions of the
skeleton. -/
lemma process_response_phase_step (g : Engine.Rng) (now : Nat)
    (s : Engine.InterviewState) (txt : String) :
    (Engine.process_response g now s txt).2.1.phase = s.phase ∨
    (s.phase = Engine.Phase.intro ∧
      (Engine.process_response g now s txt).2.1.phase = Engine.Phase.qa) ∨
    (s.phase = Engine.Phase.qa ∧
      (Engine.process_response g now s txt).2.1.phase = Engine.Phase.reflection) ∨
    (s.phase = Engine.Phase.reflection ∧
      (Engine.process_response g now s txt).2.1.phase = Engine.Phase.closing) := by
  rcases hp : s.phase
  case intro =>
    have hrw : (Engine.process_response g now s txt).2.1 = (Engine.ask_next s).2 := by
      rcases hq : s.questions[s.q_index]? with _ | q <;>
        simp [Engine.process_response, hp, hq]
    have hask : (Engine.ask_next s).2 = { s with phase := Engine.Phase.qa } := by
      rcases hq : s.questions[s.q_index]? with _ | q <;>
        simp [Engine.ask_next, hp, hq]
    exact Or.inr (Or.inl ⟨rfl, by rw [hrw, hask]⟩)
  case qa =>
    rcases hq : s.questions[s.q_index]? with _ | q
    · rw [process_response_state_qa_none hp hq]
      exact Or.inr (Or.inr (Or.inl ⟨rfl, rfl⟩))
    · obtain ⟨resp, hstep⟩ := process_response_state_qa_some hp hq g now txt
      rw [hstep]
      rcases ask_next_qa_phase { s with responses := s.responses ++ [resp], q_index := s.q_index + 1 } hp with h | h
      · exact Or.inl h
      · exact Or.inr (Or.inr (Or.inl ⟨rfl, h⟩))
  case scenario =>
    have hrw : (Engine.process_response g now s txt).2.1 = (Engine.ask_next s).2 := by
      rcases hq : s.questions[s.q_index]? with _ | q <;>
        simp [Engine.process_response, hp, hq]
    have hask : (Engine.ask_next s).2 = s := by
      rcases hq : s.questions[s.q_index]? with _ | q <;>
        simp [Engine.ask_next, hp, hq]
    exact Or.inl (by rw [hrw, hask, hp])
  case reflection =>
    rw [process_response_state_reflection hp]
    exact Or.inr (Or.inr (Or.inr ⟨rfl, rfl⟩))
  case closing =>
    rw [process_response_state_closing hp]
    exact Or.inl hp

/-- Single-step phase behaviour of an engine operation. -/
lemma stepOp_phase (g : Engine.Rng) (s : Engine.InterviewState)
    (op : Engine.EngineOp) :
    (Engine.stepOp g s op).1.phase = s.phase ∨
    (s.phase = Engine.Phase.intro ∧
      (Engine.stepOp g s op).1.phase = Engine.Phase.qa) ∨
    (s.phase = Engine.Phase.qa ∧
      (Engine.stepOp g s op).1.phase = Engine.Phase.reflection) ∨
    (s.phase = Engine.Phase.reflection ∧
      (Engine.stepOp g s op).1.phase = Engine.Phase.closing) := by
  cases op with
  | askNext => simpa [Engine.stepOp] using ask_next_phase_step s
  | respond now txt => simpa [Engine.stepOp] using process_response_phase_step g now s txt

/-- The phase list of a run always starts with the initial phase. -/
lemma statesOf_map_phase_head (g : Engine.Rng) (s : Engine.InterviewState)
    (ops : List Engine.EngineOp) :
    ∃ l, (Engine.statesOf g s ops).map (fun st => st.phase) = s.phase :: l := by
  cases ops <;> exact ⟨_, rfl⟩

/-- Unfolding of the observed trace over one operation. -/
lemma observedTrace_cons (g : Engine.Rng) (s : Engine.InterviewState)
    (op : Engine.EngineOp) (rest : List Engine.EngineOp) :
    Engine.observedTrace g s (op :: rest) =
      if s.phase = (Engine.stepOp g s op).1.phase
      then Engine.observedTrace (Engine.stepOp g s op).2 (Engine.stepOp g s op).1 rest
      else s.phase ::
        Engine.observedTrace (Engine.stepOp g s op).2 (Engine.stepOp g s op).1 rest := by
  obtain ⟨l, hl⟩ :=
    statesOf_map_phase_head (Engine.stepOp g s op).2 (Engine.stepOp g s op).1 rest
  unfold Engine.observedTrace
  rw [show (Engine.statesOf g s (op :: rest)).map (fun st => st.phase) =
      s.phase :: (Engine.statesOf (Engine.stepOp g s op).2
        (Engine.stepOp g s op).1 rest).map (fun st => st.phase) from rfl]
  rw [hl]
  by_cases h : s.phase = (Engine.stepOp g s op).1.phase <;>
    simp [Engine.dedupConsec, h]

/-- The observed distinct-phase trace of any run is a leading segment of
the four-phase order the skeleton can visit from its current phase. -/
lemma observedTrace_leads :
    ∀ (ops : List Engine.EngineOp) (g : Engine.Rng) (s : Engine.InterviewState),
      Engine.leadingSegment (Engine.observedTrace g s ops)
        (Engine.skelFrom s.phase) = true := by
  intro ops
  induction ops with
  | nil =>
      intro g s
      rcases hp : s.phase <;>
        simp [Engine.observedTrace, Engine.statesOf, Engine.dedupConsec,
          Engine.skelFrom, Engine.leadingSegment, hp]
  | cons op rest ih =>
      intro g s
      rw [observedTrace_cons]
      have ihs := ih (Engine.stepOp g s op).2 (Engine.stepOp g s op).1
      by_cases h : s.phase = (Engine.stepOp g s op).1.phase
      · rw [if_pos h]
        rw [← h] at ihs
        exact ihs
      · rw [if_neg h]
        rcases stepOp_phase g s op with heq | ⟨hp, hq⟩ | ⟨hp, hq⟩ | ⟨hp, hq⟩
        · exact absurd heq.symm h
        · rw [hp]
          rw [hq] at ihs
          simp only [Engine.skelFrom] at ihs ⊢
          simp [Engine.leadingSegment, ihs]
        · rw [hp]
          rw [hq] at ihs
          simp only [Engine.skelFrom] at ihs ⊢
          simp [Engine.leadingSegment, ihs]
        · rw [hp]
          rw [hq] at ihs
          simp only [Engine.skelFrom] at ihs ⊢
          simp [Engine.leadingSegment, ihs]

/-- A leading segment is in particular a sublist. -/
lemma leadingSegment_sublist :
    ∀ (l m : List Engine.Phase),
      Engine.leadingSegment l m = true → l.Sublist m := by
  intro l
  induction l with
  | nil => intro m _; exact List.nil_sublist m
  | cons a l ih =>
      intro m h
      cases m with
      | nil => simp [Engine.leadingSegment] at h
      | cons b m =>
          simp [Engine.leadingSegment] at h
          obtain ⟨rfl, h2⟩ := h
          exact List.Sublist.cons₂ _ (ih m h2)

/-- The four skeleton phases form a subsequence of the canonical five-phase
order. -/
lemma skelFrom_intro_sublist_canonical :
    (Engine.skelFrom Engine.Phase.intro).Sublist Engine.canonicalPhases :=
  List.Sublist.cons₂ _ (List.Sublist.cons₂ _ (List.Sublist.cons _
    (List.Sublist.cons₂ _ (List.Sublist.cons₂ _ List.Sublist.slnil))))

/-- C2 (amended): over every operation sequence from a fresh session, the
observed sequence of distinct phases is a leading segment of
intro, qa, reflection, closing — monotone, never repeating and never
revisiting a phase — and hence an order-preserving subsequence (but not in
general a leading segment) of the canonical five-phase order: the skeleton
never enters the scenario phase. -/
theorem c2_phase_trace :
    ∀ (g : Engine.Rng) (sid : String) (qs : List Engine.Question) (t0 : Nat)
      (ops : List Engine.EngineOp),
      Engine.leadingSegment
        (Engine.observedTrace g (Engine.initState sid qs t0) ops)
        [Engine.Phase.intro, Engine.Phase.qa, Engine.Phase.reflection,
          Engine.Phase.closing] = true ∧
      (Engine.observedTrace g (Engine.initState sid qs t0) ops).Sublist
        Engine.canonicalPhases := by
  intro g sid qs t0 ops
  have h := observedTrace_leads ops g (Engine.initState sid qs t0)
  rw [show (Engine.initState sid qs t0).phase = Engine.Phase.intro from rfl] at h
  refine ⟨by simpa [Engine.skelFrom] using h, ?_⟩
  exact (leadingSegment_sublist _ _ h).trans skelFrom_intro_sublist_canonical

/-- Counterexample for C2: a concrete complete run visits
intro, qa, reflection, closing — this trace is not a leading segment
(initial segment) of the canonical five-phase order, because the scenario phase is
skipped. -/
theorem c2_counterexample :
    Engine.observedTrace Engine.zeroRng Engine.demoInit Engine.demoOps =
      [Engine.Phase.intro, Engine.Phase.qa, Engine.Phase.reflection,
        Engine.Phase.closing] ∧
    Engine.leadingSegment
      (Engine.observedTrace Engine.zeroRng Engine.demoInit Engine.demoOps)
      Engine.canonicalPhases = false := by
  exact ⟨by decide, by decide⟩

/-- The inclusive random draw always lands in its range. -/
lemma randint_bounds (g : Engine.Rng) (a b : Nat) (h : a ≤ b) :
    a ≤ (Engine.randint g a b).1 ∧ (Engine.randint g a b).1 ≤ b := by
  have hm : g.stream g.pos % (b - a + 1) < b - a + 1 := Nat.mod_lt _ (by omega)
  unfold Engine.randint
  constructor
  · simp
  · simp
    omega

/-- All axes produced by the skeleton evaluator lie between 0 and 5, the
overall weighted score included. -/
lemma evaluate_axes_bounds (g : Engine.Rng) (q : Engine.Question) (ans : String) :
    (0 : ℚ) ≤ (Engine.evaluate g q ans).1.correctness ∧
    (Engine.evaluate g q ans).1.correctness ≤ 5 ∧
    (0 : ℚ) ≤ (Engine.evaluate g q ans).1.design ∧
    (Engine.evaluate g q ans).1.design ≤ 5 ∧
    (0 : ℚ) ≤ (Engine.evaluate g q ans).1.communication ∧
    (Engine.evaluate g q ans).1.communication ≤ 5 ∧
    (0 : ℚ) ≤ (Engine.evaluate g q ans).1.overall ∧
    (Engine.evaluate g q ans).1.overall ≤ 5 := by
  have ec : (Engine.evaluate g q ans).1.correctness =
      ((Engine.randint g 3 5).1 : ℚ) := rfl
  have ed : (Engine.evaluate g q ans).1.design =
      ((Engine.randint (Engine.randint g 3 5).2 2 5).1 : ℚ) := rfl
  have em : (Engine.evaluate g q ans).1.communication =
      ((Engine.randint (Engine.randint (Engine.randint g 3 5).2 2 5).2 2 5).1 : ℚ) := rfl
  have eo : (Engine.evaluate g q ans).1.overall =
      (Engine.evaluate g q ans).1.correctness * 0.4 +
      (Engine.evaluate g q ans).1.design * 0.3 +
      (Engine.evaluate g q ans).1.communication * 0.3 := rfl
  obtain ⟨hc1, hc2⟩ := randint_bounds g 3 5 (by omega)
  obtain ⟨hd1, hd2⟩ := randint_bounds (Engine.randint g 3 5).2 2 5 (by omega)
  obtain ⟨hm1, hm2⟩ :=
    randint_bounds (Engine.randint (Engine.randint g 3 5).2 2 5).2 2 5 (by omega)
  have hcq1 : (3 : ℚ) ≤ ((Engine.randint g 3 5).1 : ℚ) := by exact_mod_cast hc1
  have hcq2 : ((Engine.randint g 3 5).1 : ℚ) ≤ 5 := by exact_mod_cast hc2
  have hdq1 : (2 : ℚ) ≤ ((Engine.randint (Engine.randint g 3 5).2 2 5).1 : ℚ) := by
    exact_mod_cast hd1
  have hdq2 : ((Engine.randint (Engine.randint g 3 5).2 2 5).1 : ℚ) ≤ 5 := by
    exact_mod_cast hd2
  have hmq1 : (2 : ℚ) ≤
      ((Engine.randint (Engine.randint (Engine.randint g 3 5).2 2 5).2 2 5).1 : ℚ) := by
    exact_mod_cast hm1
  have hmq2 :
      ((Engine.randint (Engine.randint (Engine.randint g 3 5).2 2 5).2 2 5).1 : ℚ) ≤ 5 := by
    exact_mod_cast hm2
  rw [eo, ec, ed, em]
  refine ⟨by linarith, by linarith, by linarith, by linarith, by linarith,
    by linarith, by linarith, by linarith⟩

/-- Summing bounded per-response scores is bounded below by the
accumulator and above by 100 per response. -/
lemma foldl_score_bounds :
    ∀ (l : List Backend.SessionResponse) (acc : ℚ),
      (∀ r ∈ l, 0 ≤ r.score.getD 0 ∧ r.score.getD 0 ≤ 100) →
      acc ≤ l.foldl (fun sum r => sum + r.score.getD 0) acc ∧
      l.foldl (fun sum r => sum + r.score.getD 0) acc ≤ acc + 100 * l.length := by
  intro l
  induction l with
  | nil => intro acc _; simp
  | cons r l ih =>
      intro acc h
      have hr := h r (List.mem_cons_self r l)
      have hrest := ih (acc + r.score.getD 0)
        (fun r2 h2 => h r2 (List.mem_cons_of_mem _ h2))
      simp only [List.foldl_cons, List.length_cons]
      constructor
      · linarith [hrest.1, hr.1]
      · have h2 := hrest.2
        push_cast
        push_cast at h2
        linarith [hr.2]

/-- C3 (amended): every rubric axis score of the skeleton evaluator —
including the weighted overall — lies in the interval from 0 to 5; and the
total stored by `completeSession` is the plain, un-normalized sum of the
evaluated responses, hence bounded below by 0 and above by 100 times the
number of scored responses (not by 100). -/
theorem c3_score_bounds :
    (∀ (g : Engine.Rng) (q : Engine.Question) (ans : String),
      (0 : ℚ) ≤ (Engine.evaluate g q ans).1.correctness ∧
      (Engine.evaluate g q ans).1.correctness ≤ 5 ∧
      (0 : ℚ) ≤ (Engine.evaluate g q ans).1.design ∧
      (Engine.evaluate g q ans).1.design ≤ 5 ∧
      (0 : ℚ) ≤ (Engine.evaluate g q ans).1.communication ∧
      (Engine.evaluate g q ans).1.communication ≤ 5 ∧
      (0 : ℚ) ≤ (Engine.evaluate g q ans).1.overall ∧
      (Engine.evaluate g q ans).1.overall ≤ 5) ∧
    (∀ (t : List Backend.SessionResponse) (sid : String),
      (∀ r ∈ Backend.sessionResponses t sid,
        0 ≤ r.score.getD 0 ∧ r.score.getD 0 ≤ 100) →
      0 ≤ Backend.completeTotalScore t sid ∧
      Backend.completeTotalScore t sid ≤
        100 * (((Backend.sessionResponses t sid).filter
          fun r => r.score.isSome).length : ℚ)) := by
  constructor
  · exact evaluate_axes_bounds
  · intro t sid h
    have hsub : ∀ r ∈ ((Backend.sessionResponses t sid).filter
        fun r => r.score.isSome), 0 ≤ r.score.getD 0 ∧ r.score.getD 0 ≤ 100 :=
      fun r hr => h r (List.mem_of_mem_filter hr)
    have hb := foldl_score_bounds
      (((Backend.sessionResponses t sid).filter fun r => r.score.isSome)) 0 hsub
    unfold Backend.completeTotalScore
    constructor
    · exact hb.1
    · have := hb.2
      linarith [this]

/-- Witness for C3: the bounds applied to the concrete fully scored
two-response table. -/
theorem c3_score_bounds_witness :
    0 ≤ Backend.completeTotalScore Demo.twoRowsScored "s1" ∧
    Backend.completeTotalScore Demo.twoRowsScored "s1" ≤
      100 * (((Backend.sessionResponses Demo.twoRowsScored "s1").filter
        fun r => r.score.isSome).length : ℚ) :=
  c3_score_bounds.2 Demo.twoRowsScored "s1" (by decide)

/-- Counterexample for C3: two responses submitted and then evaluated at
the schema-maximal score 100 give a completed session whose stored total
score is 200 — the overall score at completion is a raw sum, not a value
normalized into the interval from 0 to 100. -/
theorem c3_counterexample :
    (Backend.submitResponse [] "s1" "q1" "=SUM(A1:A10)" 10).bind
      (fun t1 => (Backend.submitResponse t1 "s1" "q2" "=VLOOKUP(A1,B:C,2,FALSE)" 12).bind
      (fun t2 => (Backend.evaluateResponseEndpoint t2 0 100 true).bind
      (fun t3 => Backend.evaluateResponseEndpoint t3 1 100 true))) =
      Except.ok Demo.twoRowsScored ∧
    Backend.completeTotalScore Demo.twoRowsScored "s1" = 200 ∧
    ¬ Backend.completeTotalScore Demo.twoRowsScored "s1" ≤ 100 ∧
    (Backend.completeSession Demo.twoRowsScored Demo.session0 99).total_score =
      some 200 := by
  have h2 : Backend.completeTotalScore Demo.twoRowsScored "s1" = 200 := by
    norm_num [Backend.completeTotalScore, Backend.sessionResponses,
      Demo.twoRowsScored, Demo.twoRows, Backend.evaluateResponse,
      Backend.mkSubmitRow]
  refine ⟨rfl, h2, by rw [h2]; norm_num, ?_⟩
  show some (Backend.completeTotalScore Demo.twoRowsScored Demo.session0.id) = some 200
  rw [show Demo.session0.id = "s1" from rfl, h2]

/-- C6: the spec-modelled difficulty adapter is a pure function of the
rolling window of the last two correctness scores: average at least 4
escalates one tier capped at expert, average at most 2 de-escalates one
tier floored at beginner, anything strictly between holds the tier, and
any history with the same last-two window reproduces the identical
decision. -/
theorem c6_difficulty_policy :
    ∀ (history : List ℚ) (current : DifficultyLevel),
      (SpecModel.lastN 2 history ≠ [] →
        ((4 ≤ (SpecModel.lastN 2 history).sum /
            ((SpecModel.lastN 2 history).length : ℚ) →
          SpecModel.nextTier history current = SpecModel.escalate current) ∧
         ((SpecModel.lastN 2 history).sum /
            ((SpecModel.lastN 2 history).length : ℚ) ≤ 2 →
          SpecModel.nextTier history current = SpecModel.deescalate current) ∧
         (2 < (SpecModel.lastN 2 history).sum /
            ((SpecModel.lastN 2 history).length : ℚ) →
          (SpecModel.lastN 2 history).sum /
            ((SpecModel.lastN 2 history).length : ℚ) < 4 →
          SpecModel.nextTier history current = current))) ∧
      SpecModel.escalate DifficultyLevel.expert = DifficultyLevel.expert ∧
      SpecModel.deescalate DifficultyLevel.beginner = DifficultyLevel.beginner ∧
      (∀ h2, SpecModel.lastN 2 h2 = SpecModel.lastN 2 history →
        SpecModel.nextTier h2 current = SpecModel.nextTier history current) := by
  intro history current
  refine ⟨?_, rfl, rfl, ?_⟩
  · intro hne
    refine ⟨?_, ?_, ?_⟩
    · intro h4
      unfold SpecModel.nextTier
      rw [if_neg hne, if_pos h4]
    · intro hle
      have h4 : ¬ 4 ≤ (SpecModel.lastN 2 history).sum /
          ((SpecModel.lastN 2 history).length : ℚ) := by linarith
      unfold SpecModel.nextTier
      rw [if_neg hne, if_neg h4, if_pos hle]
    · intro hgt hlt
      have h4 : ¬ 4 ≤ (SpecModel.lastN 2 history).sum /
          ((SpecModel.lastN 2 history).length : ℚ) := by linarith
      have hng : ¬ (SpecModel.lastN 2 history).sum /
          ((SpecModel.lastN 2 history).length : ℚ) ≤ 2 := by linarith
      unfold SpecModel.nextTier
      rw [if_neg hne, if_neg h4, if_neg hng]
  · intro h2 he
    unfold SpecModel.nextTier
    rw [he]

/-- Witness for C6: two top scores escalate intermediate to advanced; two
bottom scores keep beginner at the floor. -/
theorem c6_difficulty_policy_witness :
    SpecModel.nextTier [5, 5] DifficultyLevel.intermediate =
      DifficultyLevel.advanced ∧
    SpecModel.nextTier [1, 1] DifficultyLevel.beginner =
      DifficultyLevel.beginner := by
  constructor
  · exact ((c6_difficulty_policy [5, 5] DifficultyLevel.intermediate).1
      (by simp [SpecModel.lastN])).1 (by norm_num [SpecModel.lastN])
  · exact ((c6_difficulty_policy [1, 1] DifficultyLevel.beginner).1
      (by simp [SpecModel.lastN])).2.1 (by norm_num [SpecModel.lastN])
